import Mathlib

/-!
Verification of the upstream PROXY protocol transport socket
(source/extensions/transport_sockets/proxy_protocol/proxy_protocol.cc).

The development shallowly embeds the socket's data model and operations:
protobuf configuration messages become plain structures, the socket's
mutable members become a state record threaded through the functions,
byte buffers become `List Nat` (each entry a byte value), and the
non-blocking transport channel is modelled by a finite script of write
outcomes.  Functions named after source methods are translated from the
source; the external header codec (source/extensions/common/proxy_protocol,
not part of this tree) is modelled from the specification and marked as
such in its doc comments.
-/

/-- Version enum of envoy.config.core.v3.ProxyProtocolConfig: V1 or V2. -/
inductive ProxyProtocolVersion where
  | V1
  | V2
deriving DecidableEq

/-- Match type enum of envoy.config.core.v3.ProxyProtocolPassThroughTLVs:
INCLUDE_ALL forwards every downstream TLV, INCLUDE only the listed types. -/
inductive PassTLVsMatchType where
  | INCLUDE_ALL
  | INCLUDE
deriving DecidableEq

/-- envoy.config.core.v3.ProxyProtocolPassThroughTLVs: a match type plus the
listed TLV type codes (proto uint32 values, modelled as Nat). -/
structure ProxyProtocolPassThroughTLVs where
  match_type : PassTLVsMatchType
  tlv_type : List Nat
deriving DecidableEq

/-- envoy.config.core.v3.TlvEntry: a configured TLV with a uint32 type code
and a byte-string value. -/
structure TlvEntry where
  type : Nat
  value : List Nat
deriving DecidableEq

/-- envoy.config.core.v3.ProxyProtocolConfig: version, optional pass-through
policy, and the list of statically configured TLV entries. -/
structure ProxyProtocolConfig where
  version : ProxyProtocolVersion
  pass_through_tlvs : Option ProxyProtocolPassThroughTLVs
  entries : List TlvEntry
deriving DecidableEq

/-- Network::ProxyProtocolTLV: a TLV held by the socket, with the type code
already narrowed to a uint8 (a Nat below 256 in well-formed states). -/
structure ProxyProtocolTLV where
  type : Nat
  value : List Nat
deriving DecidableEq

/-- Network::ProxyProtocolData carried inside the per-call transport socket
options: the source and destination addresses (their wire encodings, opaque
byte lists here) and the per-call TLV vector supplied by the downstream
connection. -/
structure ProxyProtocolData where
  src_addr : List Nat
  dst_addr : List Nat
  tlv_vector : List ProxyProtocolTLV
deriving DecidableEq

/-- Modelled from the spec: the fixed 12-byte PROXY protocol v2 signature the
external codec (not under this tree) writes at the start of every v2 header. -/
def proxyProtoV2Signature : List Nat :=
  [0x0d, 0x0a, 0x0d, 0x0a, 0x00, 0x0d, 0x0a, 0x51, 0x55, 0x49, 0x54, 0x0a]

/-- Modelled from the spec: the fixed LOCAL-command v2 encoding with zero
TLVs produced by Common::ProxyProtocol::generateV2LocalHeader, which is not
under this tree.  Signature, then version-2/LOCAL command byte, then
unspecified address family, then a zero 16-bit length (zero TLVs). -/
def generateV2LocalHeader : List Nat :=
  proxyProtoV2Signature ++ [0x20, 0x00, 0x00, 0x00]

/-- Modelled from the spec: big-endian 16-bit length field emitted by the v2
codec. -/
def len16 (n : Nat) : List Nat :=
  [n / 256 % 256, n % 256]

/-- Modelled from the spec: the v2 codec's wire form of one TLV record -
type byte, 16-bit big-endian value length, then the value bytes. -/
def encodeTlv (t : ProxyProtocolTLV) : List Nat :=
  [t.type % 256, t.value.length / 256 % 256, t.value.length % 256] ++ t.value

/-- Modelled from the spec: the pass-through filter the v2 codec applies to
the TLVs carried by the per-call options.  IncludeAll keeps every call TLV,
otherwise only those whose type code is in the allow-list set. -/
def passTlvs (pass_all_tlvs : Bool) (pass_through_tlvs : List Nat)
    (call_tlvs : List ProxyProtocolTLV) : List ProxyProtocolTLV :=
  if pass_all_tlvs then call_tlvs
  else call_tlvs.filter (fun t => pass_through_tlvs.contains t.type)

/-- Modelled from the spec: Common::ProxyProtocol::generateV2Header, the
external v2 codec, which is not under this tree.  It receives the per-call
options, the pass-through policy and the custom TLV list, filters the
call-supplied TLVs through the policy, and appends the encoded header to the
buffer.  When the address block plus TLV payload exceeds the 16-bit length
budget it emits the header without TLVs and reports false (overflow); the
connection is not failed. -/
def generateV2Header (options : ProxyProtocolData) (pass_all_tlvs : Bool)
    (pass_through_tlvs : List Nat) (custom_tlvs : List ProxyProtocolTLV) :
    List Nat × Bool :=
  let tlvs := passTlvs pass_all_tlvs pass_through_tlvs options.tlv_vector ++ custom_tlvs
  let tlvBytes := (tlvs.map encodeTlv).flatten
  let addr := options.src_addr ++ options.dst_addr
  if addr.length + tlvBytes.length ≤ 65535 then
    (proxyProtoV2Signature ++ [0x21] ++ len16 (addr.length + tlvBytes.length)
      ++ addr ++ tlvBytes, true)
  else
    (proxyProtoV2Signature ++ [0x21] ++ len16 addr.length ++ addr, false)

/-- Modelled from the spec: Common::ProxyProtocol::generateV1Header, the
external v1 codec (ASCII PROXY line), not under this tree.  Only its shape
matters here: a fixed prefix, the two addresses, and the CRLF terminator. -/
def generateV1Header (src dst : List Nat) : List Nat :=
  [0x50, 0x52, 0x4f, 0x58, 0x59, 0x20] ++ src ++ [0x20] ++ dst ++ [0x0d, 0x0a]

/-- State of an UpstreamProxyProtocolSocket: the members fixed by the
constructor (version_, options_, pass_all_tlvs_, pass_through_tlvs_,
config_tlvs_) and the mutable members (custom_tlvs_, header_buffer_) plus
the connection-scoped view of the stats_.v2_tlvs_exceed_max_length_ counter,
0 at construction. -/
structure UpstreamProxyProtocolSocket where
  version_ : ProxyProtocolVersion
  options_ : Option (Option ProxyProtocolData)
  pass_all_tlvs_ : Bool
  pass_through_tlvs_ : List Nat
  config_tlvs_ : List ProxyProtocolTLV
  custom_tlvs_ : List ProxyProtocolTLV
  header_buffer_ : List Nat
  v2_tlvs_exceed_max_length_ : Nat
deriving DecidableEq

/-- The UpstreamProxyProtocolSocket constructor.  `options` is the
TransportSocketOptionsConstSharedPtr: the outer Option models a null shared
pointer, the inner one the absl::optional proxyProtocolOptions() value.
pass_all_tlvs_ is true only when a pass-through policy is present with match
type INCLUDE_ALL; the allow-list set is filled (with 0xFF-masked type codes,
i.e. mod 256) only for match type INCLUDE; static entries with an empty
value are warned about and skipped, the rest are stored with the type cast
to uint8 (mod 256). -/
def mkUpstreamProxyProtocolSocket (options : Option (Option ProxyProtocolData))
    (config : ProxyProtocolConfig) : UpstreamProxyProtocolSocket :=
  { version_ := config.version
    options_ := options
    pass_all_tlvs_ :=
      match config.pass_through_tlvs with
      | some p =>
        match p.match_type with
        | PassTLVsMatchType.INCLUDE_ALL => true
        | PassTLVsMatchType.INCLUDE => false
      | none => false
    pass_through_tlvs_ :=
      match config.pass_through_tlvs with
      | some p =>
        match p.match_type with
        | PassTLVsMatchType.INCLUDE =>
          p.tlv_type.foldl
            (fun acc tlv_type =>
              if (tlv_type % 256) ∈ acc then acc else acc ++ [tlv_type % 256]) []
        | PassTLVsMatchType.INCLUDE_ALL => []
      | none => []
    config_tlvs_ :=
      config.entries.filterMap (fun entry =>
        if entry.value = [] then none
        else some { type := entry.type % 256, value := entry.value })
    custom_tlvs_ := []
    header_buffer_ := []
    v2_tlvs_exceed_max_length_ := 0 }

/-- UpstreamProxyProtocolSocket::processCustomTLVsFromHost.  `host_metadata`
models the chain callbacks->connection->streamInfo->upstreamInfo->
upstreamHost->metadata->typed_filter_metadata lookup followed by the
UnpackTo of the proxy-protocol filter entry: none collapses every failing
step (missing upstream info, host, metadata, filter entry, or unpack
failure).  The method appends each metadata TLV entry with a non-empty value
to custom_tlvs_ (type cast to uint8) and returns the
host_metadata_tlv_types set, which - exactly as in the source - is declared
empty and never inserted into. -/
def processCustomTLVsFromHost (s : UpstreamProxyProtocolSocket)
    (host_metadata : Option ProxyProtocolConfig) :
    UpstreamProxyProtocolSocket × List Nat :=
  let host_metadata_tlv_types : List Nat := []
  match host_metadata with
  | none => (s, host_metadata_tlv_types)
  | some tlvs_metadata =>
    ({ s with
        custom_tlvs_ := s.custom_tlvs_ ++
          tlvs_metadata.entries.filterMap (fun entry =>
            if entry.value = [] then none
            else some { type := entry.type % 256, value := entry.value }) },
      host_metadata_tlv_types)

/-- The custom TLV list generateHeaderV2 hands to the codec: custom_tlvs_
after processCustomTLVsFromHost, followed by the config_tlvs_ backfill that
skips any type contained in the returned host_metadata_tlv_types set. -/
def finalCustomTlvs (s : UpstreamProxyProtocolSocket)
    (host_metadata : Option ProxyProtocolConfig) : List ProxyProtocolTLV :=
  (processCustomTLVsFromHost s host_metadata).1.custom_tlvs_ ++
    s.config_tlvs_.filter (fun tlv =>
      !((processCustomTLVsFromHost s host_metadata).2.contains tlv.type))

/-- UpstreamProxyProtocolSocket::generateHeaderV2.  Without per-call proxy
protocol options the fixed LOCAL header is appended to header_buffer_.
Otherwise the host metadata TLVs are processed, the config TLVs backfilled
(skipping types in the returned set), the codec invoked, its bytes appended
to header_buffer_, and the overflow counter bumped when the codec reports
false. -/
def generateHeaderV2 (s : UpstreamProxyProtocolSocket)
    (host_metadata : Option ProxyProtocolConfig) : UpstreamProxyProtocolSocket :=
  match s.options_ with
  | some (some options) =>
    let s2 : UpstreamProxyProtocolSocket :=
      { (processCustomTLVsFromHost s host_metadata).1 with
          custom_tlvs_ := finalCustomTlvs s host_metadata }
    let res := generateV2Header options s2.pass_all_tlvs_ s2.pass_through_tlvs_
      s2.custom_tlvs_
    let s3 : UpstreamProxyProtocolSocket :=
      { s2 with header_buffer_ := s2.header_buffer_ ++ res.1 }
    if res.2 then s3
    else { s3 with v2_tlvs_exceed_max_length_ := s3.v2_tlvs_exceed_max_length_ + 1 }
  | _ => { s with header_buffer_ := s.header_buffer_ ++ generateV2LocalHeader }

/-- UpstreamProxyProtocolSocket::generateHeaderV1.  `localAddr` and
`remoteAddr` model the connection info provider's local and remote
addresses, used when no per-call options are present; otherwise the per-call
address pair is used. -/
def generateHeaderV1 (s : UpstreamProxyProtocolSocket)
    (localAddr remoteAddr : List Nat) : UpstreamProxyProtocolSocket :=
  match s.options_ with
  | some (some options) =>
    { s with header_buffer_ :=
        s.header_buffer_ ++ generateV1Header options.src_addr options.dst_addr }
  | _ =>
    { s with header_buffer_ :=
        s.header_buffer_ ++ generateV1Header localAddr remoteAddr }

/-- UpstreamProxyProtocolSocket::generateHeader: dispatch on the configured
version. -/
def generateHeader (s : UpstreamProxyProtocolSocket)
    (host_metadata : Option ProxyProtocolConfig)
    (localAddr remoteAddr : List Nat) : UpstreamProxyProtocolSocket :=
  match s.version_ with
  | ProxyProtocolVersion.V1 => generateHeaderV1 s localAddr remoteAddr
  | ProxyProtocolVersion.V2 => generateHeaderV2 s host_metadata

/-- Modelled from the spec: ProxyProtocolData::asStringForHash together with
StringUtil::CaseInsensitiveHash, neither of which is under this tree.  The
spec calls this a stable hash of the options' canonical string form used as
the pool-key contribution; it is modelled as an injective code of the
per-call options so that equal options give equal contributions and distinct
options give distinct ones. -/
def asStringForHash (d : ProxyProtocolData) : Nat :=
  Nat.pair (Encodable.encode d.src_addr)
    (Nat.pair (Encodable.encode d.dst_addr)
      (Encodable.encode (d.tlv_vector.map (fun t => (t.type, t.value)))))

/-- UpstreamProxyProtocolSocketFactory::hashKey.  `key` is the key after the
wrapped factory's own contribution (PassthroughFactory::hashKey runs first);
when the per-call options are present and carry proxy protocol options, the
hash of their canonical form is appended, otherwise nothing is. -/
def hashKey (key : List Nat) (options : Option (Option ProxyProtocolData)) :
    List Nat :=
  match options with
  | some transport_options =>
    match transport_options with
    | some proxy_protocol_options => key ++ [asStringForHash proxy_protocol_options]
    | none => key
  | none => key

/-- Network::PostIoAction: what the caller's event loop should do after the
I/O attempt. -/
inductive PostIoAction where
  | Close
  | KeepOpen
deriving DecidableEq

/-- Api::IoError::IoErrorCode, reduced to the distinction writeHeader makes:
Again (would-block) versus any other error code (carried as a numeric tag). -/
inductive IoErrorCode where
  | Again
  | Other (code : Nat)
deriving DecidableEq

/-- One outcome of callbacks_->ioHandle().write(header_buffer_): either the
channel accepts some bytes (ok n, clamped to the bytes offered) or reports
an error code. -/
inductive WriteOutcome where
  | ok (n : Nat)
  | err (e : IoErrorCode)
deriving DecidableEq

/-- Whether a write outcome is a success. -/
def WriteOutcome.isOk : WriteOutcome → Bool
  | WriteOutcome.ok _ => true
  | WriteOutcome.err _ => false

/-- Result of one writeHeader call: the post-I/O action, the bytes written
in this call, the remaining header buffer, and the bytes this call delivered
to the I/O channel (in order). -/
structure WHResult where
  action : PostIoAction
  bytes_written : Nat
  buf : List Nat
  wire : List Nat
deriving DecidableEq

/-- The do-while loop of UpstreamProxyProtocolSocket::writeHeader.  The
channel is modelled by a finite script of outcomes; an exhausted script
behaves like a would-block (the non-blocking channel will produce Again
eventually).  On ok n the channel drains min n (buffer length) bytes from
the front of the buffer; on an error the loop breaks, setting Close unless
the code is Again. -/
def writeHeaderAux : List Nat → List WriteOutcome → Nat → List Nat → WHResult
  | buf, [], bytes_written, wire =>
    ⟨PostIoAction.KeepOpen, bytes_written, buf, wire⟩
  | buf, o :: rest, bytes_written, wire =>
    if buf = [] then ⟨PostIoAction.KeepOpen, bytes_written, buf, wire⟩
    else
      match o with
      | WriteOutcome.ok n =>
        writeHeaderAux (buf.drop (min n buf.length)) rest
          (bytes_written + min n buf.length) (wire ++ buf.take (min n buf.length))
      | WriteOutcome.err e =>
        if e = IoErrorCode.Again then ⟨PostIoAction.KeepOpen, bytes_written, buf, wire⟩
        else ⟨PostIoAction.Close, bytes_written, buf, wire⟩

/-- UpstreamProxyProtocolSocket::writeHeader on a given header buffer and
channel script. -/
def writeHeader (buf : List Nat) (script : List WriteOutcome) : WHResult :=
  writeHeaderAux buf script 0 []

/-- Network::IoResult as returned by doWrite. -/
structure IoResult where
  action : PostIoAction
  bytes_processed : Nat
  end_stream_written : Bool
deriving DecidableEq

/-- The environment of a single doWrite call: the application buffer offered
by the caller, the end_stream flag, the channel script for the header drain,
and the wrapped transport socket's behaviour for the delegated write (how
many application bytes it accepts onto the same channel and the action it
returns). -/
structure CallInput where
  app : List Nat
  end_stream : Bool
  script : List WriteOutcome
  innerAccept : Nat
  innerAction : PostIoAction
deriving DecidableEq

/-- UpstreamProxyProtocolSocket::doWrite.  When header_buffer_ is non-empty
it is drained first via writeHeader; only when the drain empties the buffer
with a KeepOpen action is the wrapped transport's doWrite invoked in the
same call, its bytes added to the header bytes.  Otherwise the header result
is returned unchanged.  With an already-empty buffer the call is a pure
passthrough.  Returns the updated socket, the bytes this call delivered to
the I/O channel (header bytes then application bytes), and the IoResult. -/
def doWrite (s : UpstreamProxyProtocolSocket) (c : CallInput) :
    UpstreamProxyProtocolSocket × List Nat × IoResult :=
  if s.header_buffer_.length > 0 then
    let header_res := writeHeader s.header_buffer_ c.script
    if header_res.buf.length = 0 ∧ header_res.action = PostIoAction.KeepOpen then
      let m := min c.innerAccept c.app.length
      ({ s with header_buffer_ := header_res.buf },
        header_res.wire ++ c.app.take m,
        ⟨c.innerAction, header_res.bytes_written + m, false⟩)
    else
      ({ s with header_buffer_ := header_res.buf },
        header_res.wire,
        ⟨header_res.action, header_res.bytes_written, false⟩)
  else
    let m := min c.innerAccept c.app.length
    (s, c.app.take m, ⟨c.innerAction, m, false⟩)

/-- A sequence of doWrite calls: returns the final socket and the
concatenation, in call order, of all bytes delivered to the I/O channel. -/
def runWrites : UpstreamProxyProtocolSocket → List CallInput →
    UpstreamProxyProtocolSocket × List Nat
  | s, [] => (s, [])
  | s, c :: rest =>
    let step := doWrite s c
    let next := runWrites step.1 rest
    (next.1, step.2.1 ++ next.2)

/-- processCustomTLVsFromHost only changes custom_tlvs_: every other field of
the socket is preserved. -/
@[simp]
lemma processCustomTLVsFromHost_fields (s : UpstreamProxyProtocolSocket)
    (md : Option ProxyProtocolConfig) :
    (processCustomTLVsFromHost s md).1.header_buffer_ = s.header_buffer_
    ∧ (processCustomTLVsFromHost s md).1.pass_all_tlvs_ = s.pass_all_tlvs_
    ∧ (processCustomTLVsFromHost s md).1.pass_through_tlvs_ = s.pass_through_tlvs_
    ∧ (processCustomTLVsFromHost s md).1.config_tlvs_ = s.config_tlvs_
    ∧ (processCustomTLVsFromHost s md).1.options_ = s.options_
    ∧ (processCustomTLVsFromHost s md).1.v2_tlvs_exceed_max_length_
        = s.v2_tlvs_exceed_max_length_ := by
  cases md <;> simp [processCustomTLVsFromHost]

/-- The v2 codec model never produces an empty byte string: every branch
starts with the 12-byte signature. -/
lemma generateV2Header_ne_nil (d : ProxyProtocolData) (pa : Bool)
    (pt : List Nat) (ct : List ProxyProtocolTLV) :
    (generateV2Header d pa pt ct).1 ≠ [] := by
  unfold generateV2Header
  dsimp only
  split <;> simp [proxyProtoV2Signature]

/-- With per-call options present, the custom TLV list of the generated
socket is exactly finalCustomTlvs. -/
lemma generateHeaderV2_custom (s : UpstreamProxyProtocolSocket)
    (md : Option ProxyProtocolConfig) (d : ProxyProtocolData)
    (h : s.options_ = some (some d)) :
    (generateHeaderV2 s md).custom_tlvs_ = finalCustomTlvs s md := by
  simp only [generateHeaderV2, h]
  split <;> rfl

/-- One generateHeaderV2 run appends a non-empty block of bytes to
header_buffer_ (the LOCAL header or the codec output). -/
lemma generateHeaderV2_buffer_append (s : UpstreamProxyProtocolSocket)
    (md : Option ProxyProtocolConfig) :
    ∃ t, t ≠ [] ∧
      (generateHeaderV2 s md).header_buffer_ = s.header_buffer_ ++ t := by
  cases ho : s.options_ with
  | none =>
    exact ⟨generateV2LocalHeader, by decide, by simp [generateHeaderV2, ho]⟩
  | some oo =>
    cases oo with
    | none =>
      exact ⟨generateV2LocalHeader, by decide, by simp [generateHeaderV2, ho]⟩
    | some d =>
      refine ⟨(generateV2Header d s.pass_all_tlvs_ s.pass_through_tlvs_
        (finalCustomTlvs s md)).1, generateV2Header_ne_nil d _ _ _, ?_⟩
      simp only [generateHeaderV2, ho]
      split <;>
        simp [processCustomTLVsFromHost_fields]

/-- The per-call options code is injective: distinct options have distinct
canonical codes. -/
lemma asStringForHash_injective : Function.Injective asStringForHash := by
  intro a b h
  unfold asStringForHash at h
  rw [Nat.pair_eq_pair] at h
  obtain ⟨h1, h23⟩ := h
  rw [Nat.pair_eq_pair] at h23
  obtain ⟨h2, h3⟩ := h23
  have e1 := Encodable.encode_injective h1
  have e2 := Encodable.encode_injective h2
  have e3 := Encodable.encode_injective h3
  have hinj : Function.Injective (fun t : ProxyProtocolTLV => (t.type, t.value)) := by
    intro x y hxy
    cases x
    cases y
    simpa using hxy
  have e4 : a.tlv_vector = b.tlv_vector := List.map_injective_iff.mpr hinj e3
  cases a
  cases b
  simp_all

/-- C1: for static and metadata TLV lists sharing a type code, the claim says
the TLV set handed to the v2 codec holds the metadata entry and not the
static one.  In the code, processCustomTLVsFromHost returns an always-empty
host_metadata_tlv_types set (it is never inserted into), so the backfill
loop's skip test never fires and the static entry is passed to the codec as
well, against the source's own comment that the host metadata value must
take precedence.  Evaluated at static TLV (5, [97]) and metadata TLV
(5, [98]): the returned type set is empty and both entries reach the codec
list. -/
theorem c1_metadata_static_conflict_divergence :
    (processCustomTLVsFromHost
      (mkUpstreamProxyProtocolSocket (some (some ⟨[10], [11], []⟩))
        ⟨ProxyProtocolVersion.V2, none, [⟨5, [97]⟩]⟩)
      (some ⟨ProxyProtocolVersion.V2, none, [⟨5, [98]⟩]⟩)).2 = []
    ∧ (⟨5, [98]⟩ : ProxyProtocolTLV) ∈ (generateHeaderV2
        (mkUpstreamProxyProtocolSocket (some (some ⟨[10], [11], []⟩))
          ⟨ProxyProtocolVersion.V2, none, [⟨5, [97]⟩]⟩)
        (some ⟨ProxyProtocolVersion.V2, none, [⟨5, [98]⟩]⟩)).custom_tlvs_
    ∧ (⟨5, [97]⟩ : ProxyProtocolTLV) ∈ (generateHeaderV2
        (mkUpstreamProxyProtocolSocket (some (some ⟨[10], [11], []⟩))
          ⟨ProxyProtocolVersion.V2, none, [⟨5, [97]⟩]⟩)
        (some ⟨ProxyProtocolVersion.V2, none, [⟨5, [98]⟩]⟩)).custom_tlvs_ := by
  decide

/-- C3 counterexample: the claim that invoking header generation twice on
the same connection state with identical inputs yields byte-identical header
output fails: with a static TLV configured and per-call options present,
the second generation appends a second header built from the accumulated
custom_tlvs_ list, so both header_buffer_ and custom_tlvs_ differ from the
single-generation state. -/
theorem c3_double_generation_counterexample :
    (generateHeaderV2 (generateHeaderV2
        (mkUpstreamProxyProtocolSocket (some (some ⟨[10], [11], []⟩))
          ⟨ProxyProtocolVersion.V2, none, [⟨1, [97]⟩]⟩) none) none).header_buffer_
      ≠ (generateHeaderV2
        (mkUpstreamProxyProtocolSocket (some (some ⟨[10], [11], []⟩))
          ⟨ProxyProtocolVersion.V2, none, [⟨1, [97]⟩]⟩) none).header_buffer_
    ∧ (generateHeaderV2 (generateHeaderV2
        (mkUpstreamProxyProtocolSocket (some (some ⟨[10], [11], []⟩))
          ⟨ProxyProtocolVersion.V2, none, [⟨1, [97]⟩]⟩) none) none).custom_tlvs_
      ≠ (generateHeaderV2
        (mkUpstreamProxyProtocolSocket (some (some ⟨[10], [11], []⟩))
          ⟨ProxyProtocolVersion.V2, none, [⟨1, [97]⟩]⟩) none).custom_tlvs_ := by
  decide

/-- C3 (amended): header generation runs once per connection; running
generateHeaderV2 a second time on the resulting state is not idempotent -
it strictly extends header_buffer_ by a further non-empty header block, so
the twice-generated buffer is never byte-identical to the once-generated
one.  Byte-identical output holds only across fresh states with equal
inputs (generation is a function of the socket state and metadata). -/
theorem c3_second_generation_extends (s : UpstreamProxyProtocolSocket)
    (md : Option ProxyProtocolConfig) :
    ∃ t, t ≠ []
      ∧ (generateHeaderV2 (generateHeaderV2 s md) md).header_buffer_
          = (generateHeaderV2 s md).header_buffer_ ++ t
      ∧ (generateHeaderV2 (generateHeaderV2 s md) md).header_buffer_
          ≠ (generateHeaderV2 s md).header_buffer_ := by
  obtain ⟨t, ht, happ⟩ := generateHeaderV2_buffer_append (generateHeaderV2 s md) md
  refine ⟨t, ht, happ, ?_⟩
  rw [happ]
  intro heq
  have hl := congrArg List.length heq
  simp at hl
  exact ht hl

/-- C5: pool-key participation.  Two calls carrying distinct per-call proxy
protocol options extend the key (here: the key as left by the wrapped
factory's contribution) differently; identical options extend it
identically; absent options (null transport options, or options without the
proxy protocol field) append nothing. -/
theorem c5_pool_key_divergence (key : List Nat) (d1 d2 : ProxyProtocolData) :
    (d1 ≠ d2 → hashKey key (some (some d1)) ≠ hashKey key (some (some d2)))
    ∧ (d1 = d2 → hashKey key (some (some d1)) = hashKey key (some (some d2)))
    ∧ hashKey key (some none) = key
    ∧ hashKey key none = key := by
  refine ⟨?_, ?_, rfl, rfl⟩
  · intro hne h
    simp only [hashKey, List.append_cancel_left_eq] at h
    simp at h
    exact hne (asStringForHash_injective h)
  · intro h
    rw [h]

/-- C5 witness: at key [0] and options differing in the source address, the
hypothesis holds and the extended keys differ. -/
theorem c5_pool_key_divergence_witness :
    (⟨[1], [2], []⟩ : ProxyProtocolData) ≠ (⟨[3], [2], []⟩ : ProxyProtocolData)
    ∧ hashKey [0] (some (some ⟨[1], [2], []⟩))
      ≠ hashKey [0] (some (some ⟨[3], [2], []⟩)) :=
  ⟨by decide, (c5_pool_key_divergence [0] ⟨[1], [2], []⟩ ⟨[3], [2], []⟩).1 (by decide)⟩

/-- C6: with version V2 and no per-call proxy protocol options (null
transport options or an options object without the proxy protocol field),
the generated header is exactly the fixed LOCAL-command v2 encoding with
zero TLVs, whatever static TLVs, pass-through policy or endpoint metadata
are configured. -/
theorem c6_v2_no_options_local_header (opts : Option (Option ProxyProtocolData))
    (cfg : ProxyProtocolConfig) (md : Option ProxyProtocolConfig)
    (localAddr remoteAddr : List Nat)
    (hver : cfg.version = ProxyProtocolVersion.V2)
    (hopts : opts = none ∨ opts = some none) :
    (generateHeader (mkUpstreamProxyProtocolSocket opts cfg) md localAddr
      remoteAddr).header_buffer_ = generateV2LocalHeader := by
  rcases hopts with h | h <;>
    subst h <;>
    simp [generateHeader, generateHeaderV2, mkUpstreamProxyProtocolSocket, hver]

/-- C6 witness: a V2 configuration with a static TLV, an INCLUDE_ALL policy
and present endpoint metadata still yields the LOCAL header when the
per-call options are absent. -/
theorem c6_v2_no_options_local_header_witness :
    (⟨ProxyProtocolVersion.V2, some ⟨PassTLVsMatchType.INCLUDE_ALL, []⟩,
        [⟨7, [1, 2]⟩]⟩ : ProxyProtocolConfig).version = ProxyProtocolVersion.V2
    ∧ (generateHeader
        (mkUpstreamProxyProtocolSocket none
          ⟨ProxyProtocolVersion.V2, some ⟨PassTLVsMatchType.INCLUDE_ALL, []⟩,
            [⟨7, [1, 2]⟩]⟩)
        (some ⟨ProxyProtocolVersion.V2, none, [⟨9, [3]⟩]⟩) [10] [11]).header_buffer_
      = generateV2LocalHeader :=
  ⟨rfl,
    c6_v2_no_options_local_header none
      ⟨ProxyProtocolVersion.V2, some ⟨PassTLVsMatchType.INCLUDE_ALL, []⟩, [⟨7, [1, 2]⟩]⟩
      (some ⟨ProxyProtocolVersion.V2, none, [⟨9, [3]⟩]⟩) [10] [11] rfl (Or.inl rfl)⟩

/-- C9: configured TLV type codes are truncated to their low byte before
storage: a static entry of type t is stored with type t mod 256 (the uint8
cast) and a pass-through allow-list entry as t mod 256 (the 0xFF mask), so
two configured type codes congruent mod 256 yield identical stored codes
and colliding entries. -/
theorem c9_tlv_type_low_byte (t1 t2 : Nat) (v1 v2 : List Nat)
    (hv1 : v1 ≠ []) (hv2 : v2 ≠ []) (h : t1 % 256 = t2 % 256) :
    (mkUpstreamProxyProtocolSocket none
        ⟨ProxyProtocolVersion.V2, none, [⟨t1, v1⟩]⟩).config_tlvs_ = [⟨t1 % 256, v1⟩]
    ∧ (mkUpstreamProxyProtocolSocket none
        ⟨ProxyProtocolVersion.V2, none, [⟨t2, v2⟩]⟩).config_tlvs_ = [⟨t2 % 256, v2⟩]
    ∧ (mkUpstreamProxyProtocolSocket none
        ⟨ProxyProtocolVersion.V2, none, [⟨t1, v1⟩]⟩).config_tlvs_.map
          ProxyProtocolTLV.type
      = (mkUpstreamProxyProtocolSocket none
        ⟨ProxyProtocolVersion.V2, none, [⟨t2, v2⟩]⟩).config_tlvs_.map
          ProxyProtocolTLV.type
    ∧ (mkUpstreamProxyProtocolSocket none
        ⟨ProxyProtocolVersion.V2,
          some ⟨PassTLVsMatchType.INCLUDE, [t1]⟩, []⟩).pass_through_tlvs_
      = (mkUpstreamProxyProtocolSocket none
        ⟨ProxyProtocolVersion.V2,
          some ⟨PassTLVsMatchType.INCLUDE, [t2]⟩, []⟩).pass_through_tlvs_ := by
  refine ⟨?_, ?_, ?_, ?_⟩ <;>
    simp [mkUpstreamProxyProtocolSocket, hv1, hv2, h]

/-- C9 witness: type codes 1 and 257 are congruent mod 256 and collide. -/
theorem c9_tlv_type_low_byte_witness :
    ([7] : List Nat) ≠ [] ∧ ([8] : List Nat) ≠ [] ∧ 1 % 256 = 257 % 256
    ∧ (mkUpstreamProxyProtocolSocket none
        ⟨ProxyProtocolVersion.V2,
          some ⟨PassTLVsMatchType.INCLUDE, [1]⟩, []⟩).pass_through_tlvs_
      = (mkUpstreamProxyProtocolSocket none
        ⟨ProxyProtocolVersion.V2,
          some ⟨PassTLVsMatchType.INCLUDE, [257]⟩, []⟩).pass_through_tlvs_ :=
  ⟨by decide, by decide, by decide,
    (c9_tlv_type_low_byte 1 257 [7] [8] (by decide) (by decide) (by decide)).2.2.2⟩

/-- C10: a configuration with no pass-through policy at all behaves as
IncludeNone: pass_all_tlvs_ is false, the allow-list set is empty, and the
codec-side pass-through filter then passes none of the call-supplied TLVs. -/
theorem c10_no_policy_include_none (opts : Option (Option ProxyProtocolData))
    (cfg : ProxyProtocolConfig) (h : cfg.pass_through_tlvs = none) :
    (mkUpstreamProxyProtocolSocket opts cfg).pass_all_tlvs_ = false
    ∧ (mkUpstreamProxyProtocolSocket opts cfg).pass_through_tlvs_ = []
    ∧ ∀ call_tlvs : List ProxyProtocolTLV,
        passTlvs (mkUpstreamProxyProtocolSocket opts cfg).pass_all_tlvs_
          (mkUpstreamProxyProtocolSocket opts cfg).pass_through_tlvs_ call_tlvs
          = [] := by
  refine ⟨by simp [mkUpstreamProxyProtocolSocket, h],
    by simp [mkUpstreamProxyProtocolSocket, h], fun call_tlvs => ?_⟩
  simp [mkUpstreamProxyProtocolSocket, h, passTlvs]

/-- C10 witness: with no policy configured, a non-trivial call TLV set is
entirely filtered out. -/
theorem c10_no_policy_include_none_witness :
    (⟨ProxyProtocolVersion.V2, none,
        [⟨1, [9]⟩]⟩ : ProxyProtocolConfig).pass_through_tlvs = none
    ∧ passTlvs
        (mkUpstreamProxyProtocolSocket none
          ⟨ProxyProtocolVersion.V2, none, [⟨1, [9]⟩]⟩).pass_all_tlvs_
        (mkUpstreamProxyProtocolSocket none
          ⟨ProxyProtocolVersion.V2, none, [⟨1, [9]⟩]⟩).pass_through_tlvs_
        [⟨2, [5]⟩, ⟨3, [6]⟩] = [] :=
  ⟨rfl,
    (c10_no_policy_include_none none
      ⟨ProxyProtocolVersion.V2, none, [⟨1, [9]⟩]⟩ rfl).2.2 [⟨2, [5]⟩, ⟨3, [6]⟩]⟩

/-- Members of the custom TLV list appended by processCustomTLVsFromHost are
either pre-existing members or metadata entries with a non-empty value. -/
lemma mem_processCustomTLVsFromHost (s : UpstreamProxyProtocolSocket)
    (md : Option ProxyProtocolConfig) (t : ProxyProtocolTLV)
    (ht : t ∈ (processCustomTLVsFromHost s md).1.custom_tlvs_) :
    t ∈ s.custom_tlvs_ ∨ t.value ≠ [] := by
  cases md with
  | none => exact Or.inl ht
  | some m =>
    simp only [processCustomTLVsFromHost, List.mem_append] at ht
    rcases ht with h | h
    · exact Or.inl h
    · right
      rw [List.mem_filterMap] at h
      obtain ⟨e, _, he⟩ := h
      by_cases hv : e.value = []
      · simp [hv] at he
      · simp only [hv, if_false, Option.some.injEq] at he
        rw [← he]
        exact hv

/-- Members of the constructed socket's static TLV list have non-empty
values. -/
lemma mem_config_tlvs (opts : Option (Option ProxyProtocolData))
    (cfg : ProxyProtocolConfig) (t : ProxyProtocolTLV)
    (ht : t ∈ (mkUpstreamProxyProtocolSocket opts cfg).config_tlvs_) :
    t.value ≠ [] := by
  simp only [mkUpstreamProxyProtocolSocket, List.mem_filterMap] at ht
  obtain ⟨e, _, he⟩ := ht
  by_cases hv : e.value = []
  · simp [hv] at he
  · simp only [hv, if_false, Option.some.injEq] at he
    rw [← he]
    exact hv

/-- C4: a TLV whose value is the empty byte blob is never part of the final
TLV set handed to the codec: empty-value static entries are dropped at
construction and never stored in config_tlvs_, and empty-value metadata
entries are dropped at ingestion, so every member of the generated socket's
custom_tlvs_ list has a non-empty value. -/
theorem c4_no_empty_tlv_values (opts : Option (Option ProxyProtocolData))
    (cfg : ProxyProtocolConfig) (md : Option ProxyProtocolConfig)
    (t : ProxyProtocolTLV) :
    (t ∈ (mkUpstreamProxyProtocolSocket opts cfg).config_tlvs_ → t.value ≠ [])
    ∧ (t ∈ (generateHeaderV2 (mkUpstreamProxyProtocolSocket opts cfg)
        md).custom_tlvs_ → t.value ≠ []) := by
  constructor
  · exact mem_config_tlvs opts cfg t
  · intro ht
    cases ho : (mkUpstreamProxyProtocolSocket opts cfg).options_ with
    | none =>
      rw [generateHeaderV2] at ht
      simp only [ho] at ht
      have : t ∈ (mkUpstreamProxyProtocolSocket opts cfg).custom_tlvs_ := ht
      simp [mkUpstreamProxyProtocolSocket] at this
    | some oo =>
      cases oo with
      | none =>
        rw [generateHeaderV2] at ht
        simp only [ho] at ht
        have : t ∈ (mkUpstreamProxyProtocolSocket opts cfg).custom_tlvs_ := ht
        simp [mkUpstreamProxyProtocolSocket] at this
      | some d =>
        rw [generateHeaderV2_custom _ md d ho] at ht
        rw [finalCustomTlvs, List.mem_append] at ht
        rcases ht with h | h
        · rcases mem_processCustomTLVsFromHost _ md t h with h0 | h0
          · simp [mkUpstreamProxyProtocolSocket] at h0
          · exact h0
        · exact mem_config_tlvs opts cfg t (List.mem_of_mem_filter h)

/-- C4 witness: a non-empty static TLV is stored and reaches the codec list;
the theorem certifies its value is non-empty. -/
theorem c4_no_empty_tlv_values_witness :
    (⟨1, [97]⟩ : ProxyProtocolTLV) ∈ (generateHeaderV2
        (mkUpstreamProxyProtocolSocket (some (some ⟨[10], [11], []⟩))
          ⟨ProxyProtocolVersion.V2, none, [⟨1, [97]⟩]⟩) none).custom_tlvs_
    ∧ (⟨1, [97]⟩ : ProxyProtocolTLV).value ≠ [] :=
  ⟨by decide,
    (c4_no_empty_tlv_values (some (some ⟨[10], [11], []⟩))
      ⟨ProxyProtocolVersion.V2, none, [⟨1, [97]⟩]⟩ none ⟨1, [97]⟩).2 (by decide)⟩

/-- Splitting a take at an intermediate point. -/
lemma take_add_split (l : List Nat) (m n : Nat) :
    l.take (m + n) = l.take m ++ (l.drop m).take n := by
  have h := List.take_append_drop m (l.take (m + n))
  rw [List.take_take, min_eq_left (Nat.le_add_right m n)] at h
  rw [← List.take_drop] at h
  exact h.symm

/-- The writeHeader loop drains some prefix of the buffer: there is a k with
bytes_written increased by k, the remaining buffer the k-drop, and the wire
output the k-take appended to the accumulator. -/
lemma writeHeaderAux_drain (script : List WriteOutcome) :
    ∀ (buf wire : List Nat) (bw : Nat),
    ∃ k, (writeHeaderAux buf script bw wire).bytes_written = bw + k
       ∧ (writeHeaderAux buf script bw wire).buf = buf.drop k
       ∧ (writeHeaderAux buf script bw wire).wire = wire ++ buf.take k := by
  induction script with
  | nil =>
    intro buf wire bw
    exact ⟨0, by simp [writeHeaderAux]⟩
  | cons o rest ih =>
    intro buf wire bw
    by_cases hb : buf = []
    · exact ⟨0, by simp [writeHeaderAux, hb]⟩
    · cases o with
      | ok n =>
        obtain ⟨k, h1, h2, h3⟩ := ih (buf.drop (min n buf.length))
          (wire ++ buf.take (min n buf.length)) (bw + min n buf.length)
        refine ⟨min n buf.length + k, ?_, ?_, ?_⟩
        · simp only [writeHeaderAux, if_neg hb]
          rw [h1]
          omega
        · simp only [writeHeaderAux, if_neg hb]
          rw [h2, List.drop_drop]
        · simp only [writeHeaderAux, if_neg hb]
          rw [h3, take_add_split buf (min n buf.length) k, List.append_assoc]
      | err e =>
        by_cases he : e = IoErrorCode.Again
        · exact ⟨0, by simp [writeHeaderAux, hb, he]⟩
        · exact ⟨0, by simp [writeHeaderAux, hb, he]⟩

/-- writeHeader drains a prefix: remaining buffer is a drop, wire output the
matching take. -/
lemma writeHeader_drain (buf : List Nat) (script : List WriteOutcome) :
    ∃ k, (writeHeader buf script).bytes_written = k
       ∧ (writeHeader buf script).buf = buf.drop k
       ∧ (writeHeader buf script).wire = buf.take k := by
  obtain ⟨k, h1, h2, h3⟩ := writeHeaderAux_drain script buf [] 0
  exact ⟨k, by simpa using h1, h2, by simpa using h3⟩

/-- writeHeader on an empty buffer does nothing and keeps the connection
open. -/
lemma writeHeader_nil (script : List WriteOutcome) :
    writeHeader [] script = ⟨PostIoAction.KeepOpen, 0, [], []⟩ := by
  cases script with
  | nil => rfl
  | cons o rest => simp [writeHeader, writeHeaderAux]

/-- doWrite never touches the overflow counter. -/
lemma doWrite_stats (s : UpstreamProxyProtocolSocket) (c : CallInput) :
    (doWrite s c).1.v2_tlvs_exceed_max_length_ = s.v2_tlvs_exceed_max_length_ := by
  unfold doWrite
  dsimp only
  split_ifs <;> rfl

/-- No sequence of doWrite calls touches the overflow counter. -/
lemma runWrites_stats (calls : List CallInput) :
    ∀ s : UpstreamProxyProtocolSocket,
    (runWrites s calls).1.v2_tlvs_exceed_max_length_
      = s.v2_tlvs_exceed_max_length_ := by
  induction calls with
  | nil => intro s; rfl
  | cons c rest ih =>
    intro s
    simp only [runWrites]
    rw [ih, doWrite_stats]

/-- One doWrite call delivers a prefix of the header buffer followed by
application bytes, and application bytes are only delivered when the header
buffer has been fully drained. -/
lemma doWrite_drain (s : UpstreamProxyProtocolSocket) (c : CallInput) :
    ∃ k app, (doWrite s c).2.1 = s.header_buffer_.take k ++ app
      ∧ (doWrite s c).1.header_buffer_ = s.header_buffer_.drop k
      ∧ (app ≠ [] → s.header_buffer_.drop k = []) := by
  by_cases h : s.header_buffer_.length > 0
  · obtain ⟨k, hk1, hk2, hk3⟩ := writeHeader_drain s.header_buffer_ c.script
    by_cases hc : (writeHeader s.header_buffer_ c.script).buf.length = 0
        ∧ (writeHeader s.header_buffer_ c.script).action = PostIoAction.KeepOpen
    · refine ⟨k, c.app.take (min c.innerAccept c.app.length), ?_, ?_, ?_⟩
      · simp only [doWrite, if_pos h, if_pos hc]
        rw [hk3]
      · simp only [doWrite, if_pos h, if_pos hc]
        rw [hk2]
      · intro _
        rw [← hk2]
        exact List.eq_nil_of_length_eq_zero hc.1
    · refine ⟨k, [], ?_, ?_, ?_⟩
      · simp only [doWrite, if_pos h, if_neg hc]
        rw [hk3, List.append_nil]
      · simp only [doWrite, if_pos h, if_neg hc]
        rw [hk2]
      · intro hne
        cases hne rfl
  · have hnil : s.header_buffer_ = [] :=
      List.eq_nil_of_length_eq_zero (by omega)
    refine ⟨0, c.app.take (min c.innerAccept c.app.length), ?_, ?_, ?_⟩
    · simp only [doWrite, if_neg h]
      simp
    · simp only [doWrite, if_neg h]
      simp
    · intro _
      simp [hnil]

/-- A run of doWrite calls delivers a prefix of the initial header buffer,
then application bytes only once the header is fully drained; the remaining
buffer is exactly the undelivered suffix. -/
lemma runWrites_drain (calls : List CallInput) :
    ∀ s : UpstreamProxyProtocolSocket,
    ∃ k app, (runWrites s calls).2 = s.header_buffer_.take k ++ app
      ∧ (runWrites s calls).1.header_buffer_ = s.header_buffer_.drop k
      ∧ (app ≠ [] → s.header_buffer_.drop k = []) := by
  induction calls with
  | nil =>
    intro s
    exact ⟨0, [], by simp [runWrites], by simp [runWrites], fun h => absurd rfl h⟩
  | cons c rest ih =>
    intro s
    obtain ⟨k1, app1, hw1, hb1, ha1⟩ := doWrite_drain s c
    obtain ⟨k2, app2, hw2, hb2, ha2⟩ := ih (doWrite s c).1
    by_cases happ1 : app1 = []
    · refine ⟨k1 + k2, app2, ?_, ?_, ?_⟩
      · simp only [runWrites]
        rw [hw1, happ1, List.append_nil, hw2, hb1, ← List.append_assoc,
          ← take_add_split]
      · simp only [runWrites]
        rw [hb2, hb1, List.drop_drop]
      · intro h2
        have := ha2 h2
        rw [hb1, List.drop_drop] at this
        exact this
    · have hdone : s.header_buffer_.drop k1 = [] := ha1 happ1
      refine ⟨k1, app1 ++ app2, ?_, ?_, ?_⟩
      · simp only [runWrites]
        rw [hw1, hw2, hb1, hdone]
        simp
      · simp only [runWrites]
        rw [hb2, hb1, hdone]
        simp [hdone]
      · intro _
        exact hdone

/-- C2: drain correctness.  For any initial socket state and any sequence of
doWrite calls with arbitrary channel behaviour (partial writes, would-block,
errors), the bytes delivered to the I/O channel are a prefix of the header
buffer followed by application bytes; the remaining buffer is exactly the
undelivered header suffix; whenever any application byte is delivered the
full header precedes it (no reordering, duplication or loss); and within a
single call application data is forwarded only when the header drain fully
empties the buffer with a KeepOpen result. -/
theorem c2_drain_correctness (s : UpstreamProxyProtocolSocket)
    (calls : List CallInput) :
    (∃ k app, (runWrites s calls).2 = s.header_buffer_.take k ++ app
      ∧ (runWrites s calls).1.header_buffer_ = s.header_buffer_.drop k
      ∧ (app ≠ [] → (runWrites s calls).1.header_buffer_ = []
          ∧ (runWrites s calls).2 = s.header_buffer_ ++ app))
    ∧ ∀ c : CallInput,
        (doWrite s c).2.1 ≠ (writeHeader s.header_buffer_ c.script).wire →
        (writeHeader s.header_buffer_ c.script).buf = []
          ∧ (writeHeader s.header_buffer_ c.script).action
              = PostIoAction.KeepOpen := by
  constructor
  · obtain ⟨k, app, h1, h2, h3⟩ := runWrites_drain calls s
    refine ⟨k, app, h1, h2, fun hne => ?_⟩
    have hd := h3 hne
    refine ⟨by rw [h2, hd], ?_⟩
    rw [h1]
    congr 1
    exact List.take_of_length_le (List.drop_eq_nil_iff.mp hd)
  · intro c hne
    by_cases h : s.header_buffer_.length > 0
    · by_cases hc : (writeHeader s.header_buffer_ c.script).buf.length = 0
          ∧ (writeHeader s.header_buffer_ c.script).action = PostIoAction.KeepOpen
      · exact ⟨List.eq_nil_of_length_eq_zero hc.1, hc.2⟩
      · exfalso
        apply hne
        simp only [doWrite, if_pos h, if_neg hc]
    · have hnil : s.header_buffer_ = [] :=
        List.eq_nil_of_length_eq_zero (by omega)
      rw [hnil, writeHeader_nil]
      exact ⟨rfl, rfl⟩

/-- C2 witness: one call with a 1-byte header and a 1-byte application write
delivers header then application byte; the per-call condition is exercised
with its hypothesis discharged concretely. -/
theorem c2_drain_correctness_witness :
    (doWrite ⟨ProxyProtocolVersion.V2, none, false, [], [], [], [1], 0⟩
        ⟨[9], false, [WriteOutcome.ok 5], 1, PostIoAction.KeepOpen⟩).2.1
      ≠ (writeHeader [1] [WriteOutcome.ok 5]).wire
    ∧ (writeHeader [1] [WriteOutcome.ok 5]).buf = []
    ∧ (writeHeader [1] [WriteOutcome.ok 5]).action = PostIoAction.KeepOpen := by
  have h := (c2_drain_correctness
      ⟨ProxyProtocolVersion.V2, none, false, [], [], [], [1], 0⟩ []).2
      ⟨[9], false, [WriteOutcome.ok 5], 1, PostIoAction.KeepOpen⟩ (by decide)
  exact ⟨by decide, h.1, h.2⟩

/-- Running the loop over an all-ok script that does not drain the buffer
and then hitting an error outcome stops the loop at the error: the result
keeps the bytes, buffer and wire of the ok-run, sets Close unless the code
is Again, and never consumes the outcomes after the error. -/
lemma writeHeaderAux_err (pre : List WriteOutcome) :
    ∀ (buf wire : List Nat) (bw : Nat) (e : IoErrorCode)
      (post : List WriteOutcome),
    (∀ o ∈ pre, o.isOk = true) →
    (writeHeaderAux buf pre bw wire).buf ≠ [] →
    writeHeaderAux buf (pre ++ WriteOutcome.err e :: post) bw wire =
      ⟨if e = IoErrorCode.Again then PostIoAction.KeepOpen else PostIoAction.Close,
       (writeHeaderAux buf pre bw wire).bytes_written,
       (writeHeaderAux buf pre bw wire).buf,
       (writeHeaderAux buf pre bw wire).wire⟩ := by
  induction pre with
  | nil =>
    intro buf wire bw e post _ hne
    simp only [writeHeaderAux] at hne
    simp only [List.nil_append, writeHeaderAux, if_neg hne]
    split_ifs <;> rfl
  | cons o pre ih =>
    intro buf wire bw e post hok hne
    have ho : o.isOk = true := hok o (List.mem_cons_self o pre)
    cases o with
    | err e0 => simp [WriteOutcome.isOk] at ho
    | ok n =>
      by_cases hb : buf = []
      · exfalso
        apply hne
        simp [writeHeaderAux, hb]
      · simp only [List.cons_append, writeHeaderAux, if_neg hb]
        apply ih
        · intro x hx
          exact hok x (List.mem_cons_of_mem _ hx)
        · have := hne
          simp only [writeHeaderAux, if_neg hb] at this
          exact this

/-- C8: transport write errors while draining the header.  After any run of
successful partial writes that leaves the buffer non-empty, an error outcome
ends the call: a would-block (Again) code yields a KeepOpen action, any
other code yields Close; the result is independent of everything after the
error (no further header bytes are attempted in that call); and the
undelivered header bytes are retained - delivered wire plus remaining
buffer reassemble the original header.  The model is total, so the error
never escapes the call as an exception. -/
theorem c8_write_error_handling (buf : List Nat) (pre post : List WriteOutcome)
    (e : IoErrorCode) (hok : ∀ o ∈ pre, o.isOk = true)
    (hne : (writeHeader buf pre).buf ≠ []) :
    writeHeader buf (pre ++ WriteOutcome.err e :: post)
      = writeHeader buf (pre ++ [WriteOutcome.err e])
    ∧ (e = IoErrorCode.Again →
        (writeHeader buf (pre ++ WriteOutcome.err e :: post)).action
          = PostIoAction.KeepOpen)
    ∧ (e ≠ IoErrorCode.Again →
        (writeHeader buf (pre ++ WriteOutcome.err e :: post)).action
          = PostIoAction.Close)
    ∧ (writeHeader buf (pre ++ WriteOutcome.err e :: post)).wire
        ++ (writeHeader buf (pre ++ WriteOutcome.err e :: post)).buf = buf := by
  have h1 := writeHeaderAux_err pre buf [] 0 e post hok hne
  have h2 := writeHeaderAux_err pre buf [] 0 e [] hok hne
  refine ⟨?_, ?_, ?_, ?_⟩
  · unfold writeHeader
    rw [h1, h2]
  · intro he
    unfold writeHeader
    rw [h1]
    simp [he]
  · intro he
    unfold writeHeader
    rw [h1]
    simp [he]
  · unfold writeHeader
    rw [h1]
    obtain ⟨k, _, hbuf, hwire⟩ := writeHeaderAux_drain pre buf [] 0
    show (writeHeaderAux buf pre 0 []).wire ++ (writeHeaderAux buf pre 0 []).buf = buf
    rw [hwire, hbuf]
    simp

/-- C8 witness: header [5, 6], one successful 1-byte write, then a non-Again
error with further outcomes queued: the action is Close. -/
theorem c8_write_error_handling_witness :
    (∀ o ∈ [WriteOutcome.ok 1], o.isOk = true)
    ∧ (writeHeader [5, 6] [WriteOutcome.ok 1]).buf ≠ []
    ∧ (writeHeader [5, 6]
        ([WriteOutcome.ok 1] ++ WriteOutcome.err (IoErrorCode.Other 3)
          :: [WriteOutcome.ok 9])).action = PostIoAction.Close := by
  refine ⟨by decide, by decide, ?_⟩
  exact (c8_write_error_handling [5, 6] [WriteOutcome.ok 1] [WriteOutcome.ok 9]
    (IoErrorCode.Other 3) (by decide) (by decide)).2.2.1 (by decide)

/-- generateHeaderV2 always leaves a non-empty header buffer. -/
lemma generateHeaderV2_buffer_ne_nil (s : UpstreamProxyProtocolSocket)
    (md : Option ProxyProtocolConfig) :
    (generateHeaderV2 s md).header_buffer_ ≠ [] := by
  obtain ⟨t, ht, happ⟩ := generateHeaderV2_buffer_append s md
  rw [happ]
  simp [ht]

/-- With options present, the overflow counter after generateHeaderV2 is the
old value plus one exactly when the codec reports overflow, else unchanged. -/
lemma generateHeaderV2_stats (s : UpstreamProxyProtocolSocket)
    (md : Option ProxyProtocolConfig) (d : ProxyProtocolData)
    (h : s.options_ = some (some d)) :
    (generateHeaderV2 s md).v2_tlvs_exceed_max_length_ =
      if (generateV2Header d s.pass_all_tlvs_ s.pass_through_tlvs_
          (finalCustomTlvs s md)).2
      then s.v2_tlvs_exceed_max_length_
      else s.v2_tlvs_exceed_max_length_ + 1 := by
  obtain ⟨hb, hpa, hpt, hcf, hop, hst⟩ := processCustomTLVsFromHost_fields s md
  simp only [generateHeaderV2, h]
  split <;> rename_i hres <;> rw [hpa, hpt] at hres <;> simp [hres, hst]

/-- C7: when the v2 codec reports that the TLV payload exceeds the length
budget, the overflow counter - 0 at construction - is exactly 1 after
header generation, stays exactly 1 across any sequence of write attempts
(doWrite never touches it), and generation still queues a non-empty header
so the connection attempt proceeds. -/
theorem c7_overflow_counter_once (opts : Option (Option ProxyProtocolData))
    (cfg : ProxyProtocolConfig) (md : Option ProxyProtocolConfig)
    (d : ProxyProtocolData) (calls : List CallInput)
    (hopt : opts = some (some d))
    (hov : (generateV2Header d
        (mkUpstreamProxyProtocolSocket opts cfg).pass_all_tlvs_
        (mkUpstreamProxyProtocolSocket opts cfg).pass_through_tlvs_
        (finalCustomTlvs (mkUpstreamProxyProtocolSocket opts cfg) md)).2
      = false) :
    (generateHeaderV2 (mkUpstreamProxyProtocolSocket opts cfg)
        md).v2_tlvs_exceed_max_length_ = 1
    ∧ (runWrites (generateHeaderV2 (mkUpstreamProxyProtocolSocket opts cfg) md)
        calls).1.v2_tlvs_exceed_max_length_ = 1
    ∧ (generateHeaderV2 (mkUpstreamProxyProtocolSocket opts cfg)
        md).header_buffer_ ≠ [] := by
  have hs : (generateHeaderV2 (mkUpstreamProxyProtocolSocket opts cfg)
      md).v2_tlvs_exceed_max_length_ = 1 := by
    rw [generateHeaderV2_stats _ md d (by rw [hopt]; rfl), hov]
    simp [mkUpstreamProxyProtocolSocket]
  refine ⟨hs, ?_, generateHeaderV2_buffer_ne_nil _ md⟩
  rw [runWrites_stats calls, hs]

/-- The codec model reports overflow exactly when address block plus encoded
TLV payload exceed the 16-bit budget. -/
lemma generateV2Header_overflow_iff (d : ProxyProtocolData) (pa : Bool)
    (pt : List Nat) (ct : List ProxyProtocolTLV) :
    (generateV2Header d pa pt ct).2 = false ↔
      ¬ ((d.src_addr ++ d.dst_addr).length +
        ((passTlvs pa pt d.tlv_vector ++ ct).map encodeTlv).flatten.length
          ≤ 65535) := by
  unfold generateV2Header
  dsimp only
  split <;> rename_i h
  · exact iff_of_false (fun heq => Bool.noConfusion heq) (fun hn => hn h)
  · exact iff_of_true rfl h

/-- Overflow condition specialised to a single call-supplied TLV under an
IncludeAll policy with empty addresses and no custom TLVs. -/
lemma generateV2Header_overflow_single (t : ProxyProtocolTLV) :
    (generateV2Header ⟨[], [], [t]⟩ true [] []).2 = false ↔
      ¬ (3 + t.value.length ≤ 65535) := by
  rw [generateV2Header_overflow_iff]
  dsimp only
  have h : ((passTlvs true [] [t] ++ []).map encodeTlv).flatten.length
      = 3 + t.value.length := by
    simp [passTlvs, encodeTlv]
    omega
  rw [h]
  simp

/-- C7 witness: a per-call TLV of 65536 value bytes under an INCLUDE_ALL
policy overflows the 16-bit budget; the counter is exactly 1 after
generation. -/
theorem c7_overflow_counter_once_witness :
    (generateV2Header ⟨[], [], [⟨1, List.replicate 65536 0⟩]⟩
        (mkUpstreamProxyProtocolSocket
          (some (some ⟨[], [], [⟨1, List.replicate 65536 0⟩]⟩))
          ⟨ProxyProtocolVersion.V2, some ⟨PassTLVsMatchType.INCLUDE_ALL, []⟩,
            []⟩).pass_all_tlvs_
        (mkUpstreamProxyProtocolSocket
          (some (some ⟨[], [], [⟨1, List.replicate 65536 0⟩]⟩))
          ⟨ProxyProtocolVersion.V2, some ⟨PassTLVsMatchType.INCLUDE_ALL, []⟩,
            []⟩).pass_through_tlvs_
        (finalCustomTlvs
          (mkUpstreamProxyProtocolSocket
            (some (some ⟨[], [], [⟨1, List.replicate 65536 0⟩]⟩))
            ⟨ProxyProtocolVersion.V2, some ⟨PassTLVsMatchType.INCLUDE_ALL, []⟩,
              []⟩)
          none)).2 = false
    ∧ (generateHeaderV2
        (mkUpstreamProxyProtocolSocket
          (some (some ⟨[], [], [⟨1, List.replicate 65536 0⟩]⟩))
          ⟨ProxyProtocolVersion.V2, some ⟨PassTLVsMatchType.INCLUDE_ALL, []⟩,
            []⟩)
        none).v2_tlvs_exceed_max_length_ = 1 := by
  have hov : (generateV2Header ⟨[], [], [⟨1, List.replicate 65536 0⟩]⟩
      (mkUpstreamProxyProtocolSocket
        (some (some ⟨[], [], [⟨1, List.replicate 65536 0⟩]⟩))
        ⟨ProxyProtocolVersion.V2, some ⟨PassTLVsMatchType.INCLUDE_ALL, []⟩,
          []⟩).pass_all_tlvs_
      (mkUpstreamProxyProtocolSocket
        (some (some ⟨[], [], [⟨1, List.replicate 65536 0⟩]⟩))
        ⟨ProxyProtocolVersion.V2, some ⟨PassTLVsMatchType.INCLUDE_ALL, []⟩,
          []⟩).pass_through_tlvs_
      (finalCustomTlvs
        (mkUpstreamProxyProtocolSocket
          (some (some ⟨[], [], [⟨1, List.replicate 65536 0⟩]⟩))
          ⟨ProxyProtocolVersion.V2, some ⟨PassTLVsMatchType.INCLUDE_ALL, []⟩,
            []⟩)
        none)).2 = false := by
    show (generateV2Header ⟨[], [], [⟨1, List.replicate 65536 0⟩]⟩
      true [] []).2 = false
    apply (generateV2Header_overflow_single ⟨1, List.replicate 65536 0⟩).mpr
    have h1 : (⟨1, List.replicate 65536 0⟩ : ProxyProtocolTLV).value
        = List.replicate 65536 0 := rfl
    rw [h1, List.length_replicate]
    omega
  exact ⟨hov,
    (c7_overflow_counter_once
      (some (some ⟨[], [], [⟨1, List.replicate 65536 0⟩]⟩))
      ⟨ProxyProtocolVersion.V2, some ⟨PassTLVsMatchType.INCLUDE_ALL, []⟩, []⟩
      none ⟨[], [], [⟨1, List.replicate 65536 0⟩]⟩ [] rfl hov).1⟩
